import Mathlib

/-!
Shallow embedding of the customer-segmentation core of the repository
(`src/step2-model-build-deploy/src`): `preprocessing.py`, the model-building
portion of `train.py` and the serving path of `inference.py`.

Numbers are embedded as exact rationals.  pandas/numpy float semantics that
matter to the claims (division by zero yielding `inf`/`nan` instead of
raising) are captured by an extended value type `PVal`.  The square root used
by the row normalizer and by the Euclidean distances of `KMeans.transform`
is kept abstract (a function parameter `sq : ℚ → ℚ`), since exact square
roots leave ℚ; every theorem quantifies over it.  The fitted states of
`PCA.fit` and `KMeans.fit` (an eigenbasis, final cluster centers) are not
rational-computable, so they are likewise parameters (`pf`, `kf`); the
sklearn facts `fit_transform X = transform (fit X) X` and
`fit_predict X = predict (fit X) X` (exact-arithmetic semantics of
`PCA.fit_transform` returning `U·S` and of KMeans labelling against its
final centers) are reflected in the definitions of the training path.
-/

namespace Seg

/-- A pandas cell value: a finite number, `inf`, `-inf`, `NaN`
(float semantics of numpy true division), or a string (the `Gender` and
textual columns of a raw frame). -/
inductive PVal where
  | num (q : ℚ)
  | inf
  | negInf
  | nan
  | str (s : String)
deriving DecidableEq, Repr

/-- numpy true division of two rationals: division by zero silently yields
`±inf` (or `NaN` for `0/0`), exactly as `pd.Series.__truediv__` does. -/
def pdivQ (a b : ℚ) : PVal :=
  if b = 0 then
    (if a = 0 then .nan else if 0 < a then .inf else .negInf)
  else .num (a / b)

/-- numpy true division on extended values.  Only the `num/num` and
`num/nan` cases are reachable in this development (`nan` denominators arise
from the mean of an empty gender group); the remaining cases follow IEEE
conventions where they are defined and default to `NaN`. -/
def pdiv : PVal → PVal → PVal
  | .num a, .num b => pdivQ a b
  | .num _, .nan => .nan
  | .num _, .inf => .num 0
  | .num _, .negInf => .num 0
  | .num _, .str _ => .nan
  | .nan, _ => .nan
  | .inf, .num b => if 0 ≤ b then .inf else .negInf
  | .inf, _ => .nan
  | .negInf, .num b => if 0 ≤ b then .negInf else .inf
  | .negInf, _ => .nan
  | .str _, _ => .nan

/-- `astype(int)` of a boolean mask entry. -/
def boolInd (c : Bool) : PVal := .num (if c then 1 else 0)

/-- One raw customer record, the row schema
`{Customer_ID, Age, Income, Purchases, Gender}` of the training CSV and of
the validated serving frame (`Customer_ID` numeric: `input_fn` auto-assigns
a zero-based row index when the column is absent). -/
structure Record where
  customer_id : ℚ
  age : ℚ
  income : ℚ
  purchases : ℚ
  gender : String
deriving DecidableEq, Repr

/-- A DataFrame, column-major: the ordered list of (column name, cells).
Column order is pandas' insertion order. -/
abbrev Table := List (String × List PVal)

/-- The ordered column names of a frame. -/
def colNames (t : Table) : List String := t.map Prod.fst

/-- Cells of a named column (first occurrence), `[]` when absent. -/
def getColVals (t : Table) (n : String) : List PVal :=
  match t.find? (fun c => c.1 = n) with
  | some c => c.2
  | none => []

/-- pandas column assignment `df[n] = v`: overwrite in place when the column
exists, else append it at the end of the frame. -/
def setCol (t : Table) (n : String) (v : List PVal) : Table :=
  if (colNames t).contains n then
    t.map (fun c => if c.1 = n then (n, v) else c)
  else t ++ [(n, v)]

/-- `df.drop(ns, axis=1)` on a frame that contains all of `ns`. -/
def dropCols (t : Table) (ns : List String) : Table :=
  t.filter (fun c => ¬ ns.contains c.1)

/-- `df[ns]`: column selection in the order of `ns` (the KeyError of a
missing label is checked separately by the caller). -/
def selectCols (t : Table) (ns : List String) : Table :=
  ns.map (fun n => (n, getColVals t n))

/-- The raw frame a batch of records materializes as, in schema order. -/
def recordsToTable (b : List Record) : Table :=
  [("Customer_ID", b.map (fun r => .num r.customer_id)),
   ("Age", b.map (fun r => .num r.age)),
   ("Income", b.map (fun r => .num r.income)),
   ("Purchases", b.map (fun r => .num r.purchases)),
   ("Gender", b.map (fun r => .str r.gender))]

/-- numpy linear-interpolation quantile of a sorted list `s` at probability
`p`: with `h = p·(n-1)`, the value is `s[⌊h⌋] + (h-⌊h⌋)·(s[⌊h⌋+1]-s[⌊h⌋])`. -/
def quantileQ (s : List ℚ) (p : ℚ) : ℚ :=
  s.getD ((p * ((s.length : ℚ) - 1)).floor.toNat) 0
    + (p * ((s.length : ℚ) - 1) - (((p * ((s.length : ℚ) - 1)).floor.toNat : ℕ) : ℚ))
      * (s.getD ((p * ((s.length : ℚ) - 1)).floor.toNat + 1) 0
         - s.getD ((p * ((s.length : ℚ) - 1)).floor.toNat) 0)

/-- Is a list strictly increasing?  pandas' uniqueness check on quartile
edges: edges are monotone, so uniqueness is adjacent strict increase. -/
def strictIncr : List ℚ → Bool
  | [] => true
  | [_] => true
  | a :: b :: rest => decide (a < b) && strictIncr (b :: rest)

/-- pandas raises `ValueError("Bin edges must be unique: ...")` from
`pd.qcut` when two quantile edges coincide. -/
def dupEdgesMsg : String := "Bin edges must be unique"

/-- The ordinal bin (0..3) of `v` against edge list `[e0,e1,e2,e3,e4]`:
first interval closed on the left (`include_lowest=True`), the rest
left-open right-closed. -/
def binOf (edges : List ℚ) (v : ℚ) : ℕ :=
  if v ≤ edges.getD 1 0 then 0
  else if v ≤ edges.getD 2 0 then 1
  else if v ≤ edges.getD 3 0 then 2
  else 3

/-- `pd.qcut(xs, q=4, labels=[Q1_Low, Q2_Medium_Low, Q3_Medium_High,
Q4_High])`: quantile edges at 0/.25/.5/.75/1 over the batch, error when the
edges are not pairwise distinct, else the ordinal bin of every value. -/
def qcut4 (xs : List ℚ) : Except String (List ℕ) :=
  if xs = [] then .error dupEdgesMsg
  else
    let s := List.insertionSort (· ≤ ·) xs
    let edges := [quantileQ s 0, quantileQ s (1/4), quantileQ s (1/2),
                  quantileQ s (3/4), quantileQ s 1]
    if strictIncr edges then .ok (xs.map (binOf edges))
    else .error dupEdgesMsg

/-- `pd.get_dummies(..., prefix=pfx, drop_first=True, dtype=int)` over the
four declared quartile labels: the `Q1_Low` reference level is dropped,
leaving indicator columns for bins 1, 2, 3. -/
def quartileDummies (pfx : String) (bins : List ℕ) : Table :=
  [(pfx ++ "_Q2_Medium_Low", bins.map (fun k => boolInd (k = 1))),
   (pfx ++ "_Q3_Medium_High", bins.map (fun k => boolInd (k = 2))),
   (pfx ++ "_Q4_High", bins.map (fun k => boolInd (k = 3)))]

/-- `.mean()` of a field over the records of one gender: `NaN` when the
group is empty (pandas mean of an empty selection). -/
def genderMean (b : List Record) (g : String) (f : Record → ℚ) : PVal :=
  let xs := (b.filter (fun r => r.gender = g)).map f
  if xs = [] then .nan else .num (xs.sum / (xs.length : ℚ))

/-- `.max()` of a list of rationals. -/
def maxQ : List ℚ → ℚ
  | [] => 0
  | x :: xs => xs.foldl max x

/-- The statement sequence of `calculate_derived_features`
(`preprocessing.py` lines 24-87) acting on the working copy `df_derived`:
returns the final state of the copy together with the pandas error, if one
was raised (only `pd.qcut` can raise; the divisions silently produce
`inf`/`NaN` per numpy).  The input batch itself is never written to. -/
def deriveCore (b : List Record) : Table × Option String :=
  let t0 := recordsToTable b
  let t1 := setCol t0 "Is_Young_Adult" (b.map (fun r => boolInd (r.age ≤ 30)))
  let t2 := setCol t1 "Is_Middle_Aged"
    (b.map (fun r => boolInd (30 < r.age ∧ r.age ≤ 50)))
  let t3 := setCol t2 "Is_Senior" (b.map (fun r => boolInd (50 < r.age)))
  let t4 := setCol t3 "IS_MALE" (b.map (fun r => boolInd (r.gender = "Male")))
  match qcut4 (b.map Record.income) with
  | .error e => (t4, some e)
  | .ok ibins =>
    let t5 := t4 ++ quartileDummies "Income_Quartile" ibins
    let t6 := setCol t5 "Income_Age_Ratio" (b.map (fun r => pdivQ r.income r.age))
    match qcut4 (b.map Record.purchases) with
    | .error e => (t6, some e)
    | .ok pbins =>
      let t7 := t6 ++ quartileDummies "Purchase_Quartile" pbins
      let maxP := maxQ (b.map Record.purchases)
      let t8 := setCol t7 "Purchase_Intensity"
        (b.map (fun r => pdivQ r.purchases maxP))
      let t9 := setCol t8 "Age_Income_Ratio"
        (b.map (fun r => pdivQ r.age (r.income / 1000)))
      let t10 := setCol t9 "Purchase_Age_Ratio"
        (b.map (fun r => pdivQ r.purchases r.age))
      let mInc := genderMean b "Male" Record.income
      let fInc := genderMean b "Female" Record.income
      let mPur := genderMean b "Male" Record.purchases
      let fPur := genderMean b "Female" Record.purchases
      let t11 := setCol t10 "Income_Relative_To_Gender_Avg"
        (b.map (fun r => pdiv (.num r.income)
          (if r.gender = "Male" then mInc else fInc)))
      let t12 := setCol t11 "Purchases_Relative_To_Gender_Avg"
        (b.map (fun r => pdiv (.num r.purchases)
          (if r.gender = "Male" then mPur else fPur)))
      (t12, none)

/-- `calculate_derived_features(df)`: on success, the derived frame with the
`Gender` and `Customer_ID` columns dropped (line 90); a pandas error aborts
the call. -/
def calculate_derived_features (b : List Record) : Except String Table :=
  match deriveCore b with
  | (d, none) => .ok (dropCols d ["Gender", "Customer_ID"])
  | (_, some e) => .error e

/-- `get_numerical_features()`: the continuous-feature list used for
scaling, shared verbatim by `train.py` and `inference.py`. -/
def get_numerical_features : List String :=
  ["Age", "Income", "Purchases", "Income_Age_Ratio", "Purchase_Intensity",
   "Age_Income_Ratio", "Purchase_Age_Ratio", "Income_Relative_To_Gender_Avg",
   "Purchases_Relative_To_Gender_Avg"]

/-- `prepare_features_for_training(df)`: derive features, then split into
the continuous block `df_derived[numerical_features]` and the binary block
`df_derived.drop(numerical_features, axis=1)` (pandas raises `KeyError` on
a missing label, which cannot occur on the success path). -/
def prepare_features_for_training (b : List Record) :
    Except String (Table × Table) :=
  match calculate_derived_features b with
  | .error e => .error e
  | .ok d =>
    if get_numerical_features.all (fun n => (colNames d).contains n) then
      .ok (selectCols d get_numerical_features, dropCols d get_numerical_features)
    else .error "KeyError"

/-- `get_cluster_names()`: the default segment-name map persisted by
training. -/
def get_cluster_names : List (ℕ × String) :=
  [(0, "Old"), (1, "Middle Aged"), (2, "Young")]

/-- The `json.dump`/`json.load` round trip of `cluster_names.json`: JSON
object keys are strings, so `predict_fn` looks segments up by `str(cluster)`. -/
def jsonKeys (m : List (ℕ × String)) : List (String × String) :=
  m.map (fun p => (toString p.1, p.2))

/-- Row-major view of a column-major frame (`DataFrame.values`). -/
def tableRows (t : Table) : List (List PVal) :=
  match t with
  | [] => []
  | c :: _ => (List.range c.2.length).map
      (fun i => t.map (fun col => col.2.getD i .nan))

/-- A finite numeric cell, as sklearn's `check_array` demands. -/
def finVal : PVal → Option ℚ
  | .num q => some q
  | _ => none

/-- sklearn input validation of a row block: all cells finite numbers, else
`ValueError("Input contains NaN, infinity or a value too large ...")`. -/
def rowsToRat (rows : List (List PVal)) : Option (List (List ℚ)) :=
  rows.mapM (fun r => r.mapM finVal)

/-- sklearn's error text for non-finite input. -/
def nonFiniteMsg : String := "Input contains NaN, infinity or a value too large"

/-- Sum of squares of a row. -/
def sumSq (v : List ℚ) : ℚ := (v.map (fun x => x * x)).sum

/-- `Normalizer().transform` on one row: divide by the Euclidean norm
`sq (Σ xᵢ²)`; sklearn leaves all-zero rows unchanged (zero norms are
replaced by 1).  `Normalizer.fit` learns nothing, so `fit_transform` at
training time and `transform` at serving time are this same function. -/
def normalizeRow (sq : ℚ → ℚ) (v : List ℚ) : List ℚ :=
  if sumSq v = 0 then v else v.map (fun x => x / sq (sumSq v))

/-- Coordinate-wise difference of two rows. -/
def subQ (a b : List ℚ) : List ℚ := List.zipWith (fun x y => x - y) a b

/-- Dot product of two rows. -/
def dotQ (a b : List ℚ) : ℚ := (List.zipWith (fun x y => x * y) a b).sum

/-- The fitted state of `PCA`: the mean-centering vector and the component
basis (one row per principal component). -/
structure PCAModel where
  mean : List ℚ
  components : List (List ℚ)
deriving DecidableEq, Repr

/-- `PCA.transform`: `(x - mean_) @ components_.T`. -/
def pca_transform (m : PCAModel) (x : List ℚ) : List ℚ :=
  m.components.map (fun comp => dotQ (subQ x m.mean) comp)

/-- Squared Euclidean distance of a reduced vector to a center. -/
def sqDist (x c : List ℚ) : ℚ :=
  (List.zipWith (fun a b => (a - b) * (a - b)) x c).sum

/-- Index of the first minimum of a distance list (`np.argmin` tie-break). -/
def argminAux : List ℚ → ℕ → ℚ → ℕ → ℕ
  | [], _, _, bi => bi
  | x :: xs, i, bv, bi =>
    if x < bv then argminAux xs (i + 1) x i else argminAux xs (i + 1) bv bi

/-- `np.argmin` over a list, 0 on the empty list. -/
def argminIdx : List ℚ → ℕ
  | [] => 0
  | x :: xs => argminAux xs 1 x 0

/-- `np.min` over a list, 0 on the empty list (unreachable: k ≥ 1). -/
def minQ : List ℚ → ℚ
  | [] => 0
  | x :: xs => xs.foldl min x

/-- `KMeans.predict` for one reduced vector: nearest center by Euclidean
distance (equivalently by squared distance), first-minimum tie-break.
`KMeans.fit_predict` labels against the final centers, so the training-time
labels are this same function applied to the fitted centers. -/
def km_predict_one (centers : List (List ℚ)) (x : List ℚ) : ℕ :=
  argminIdx (centers.map (fun c => sqDist x c))

/-- `KMeans.transform` distances of one vector to every center, with the
square root kept abstract. -/
def km_distances (sq : ℚ → ℚ) (centers : List (List ℚ)) (x : List ℚ) :
    List ℚ :=
  centers.map (fun c => sq (sqDist x c))

/-- The persisted metadata of `model_metadata.json` (the three float-valued
sklearn quality scores are diagnostic only and are not modelled). -/
structure Metadata where
  n_clusters : ℕ
  n_components : ℕ
  feature_names : List String
  model_version : String
deriving DecidableEq, Repr

/-- The loaded Model Bundle of `model_fn`: fitted normalizer (stateless),
fitted PCA, fitted KMeans centers, the JSON segment-name map, metadata. -/
structure SMModel where
  normalizer : Unit
  pca : PCAModel
  centers : List (List ℚ)
  cluster_names : List (String × String)
  metadata : Metadata
deriving DecidableEq, Repr

/-- One element of `predict_fn`'s `results` list. -/
structure PredResult where
  cluster_id : ℕ
  segment : String
  confidence : ℚ
  distance_to_center : ℚ
deriving DecidableEq, Repr

/-- The response of `predict_fn`: predictions plus the training metadata. -/
structure PredictOutput where
  predictions : List PredResult
  model_metadata : Metadata
deriving DecidableEq, Repr

/-- `cluster_names.get(str(cluster), f"Cluster_{cluster}")`: the Segment
Namer of `inference.py` line 109. -/
def segment_label (names : List (String × String)) (c : ℕ) : String :=
  (names.lookup (toString c)).getD ("Cluster_" ++ toString c)

/-- `confidence = 1.0 / (1.0 + distance)` (`inference.py` line 119). -/
def confidence_of (d : ℚ) : ℚ := 1 / (1 + d)

/-- The serving transform chain of `predict_fn` (`inference.py` lines
89-128): re-derive features from the raw batch, apply the persisted
normalizer, PCA and KMeans, resolve segment names, and zip the per-row
result records.  Errors: feature derivation propagates its pandas error;
sklearn rejects non-finite feature values. -/
def predict_core (sq : ℚ → ℚ) (m : SMModel) (b : List Record) :
    Except String PredictOutput :=
  match prepare_features_for_training b with
  | .error e => .error e
  | .ok (cont, bin) =>
    match rowsToRat (tableRows cont), rowsToRat (tableRows bin) with
    | some crows, some brows =>
      let scaled := crows.map (normalizeRow sq)
      let processed := List.zipWith (fun a b => a ++ b) scaled brows
      let pcaX := processed.map (pca_transform m.pca)
      let preds := pcaX.map (km_predict_one m.centers)
      let segs := preds.map (segment_label m.cluster_names)
      let dists := pcaX.map (fun x => minQ (km_distances sq m.centers x))
      let results := (preds.zip (segs.zip dists)).map
        (fun p => PredResult.mk p.1 p.2.1 (confidence_of p.2.2) p.2.2)
      .ok ⟨results, m.metadata⟩
    | _, _ => .error nonFiniteMsg

/-- `predict_fn(input_data, model)` with the process state made explicit:
the loaded bundle is only read, so the call returns the response together
with the (unchanged) bundle the process keeps serving with. -/
def predict_fn (sq : ℚ → ℚ) (m : SMModel) (b : List Record) :
    (Except String PredictOutput) × SMModel :=
  (predict_core sq m b, m)

/-- The model-building core of `train_model` (`train.py` lines 33-55):
derive and split features, `Normalizer().fit_transform` (row scaling),
`PCA.fit_transform`, `KMeans.fit_predict`, and assemble the artifacts that
lines 67-87 persist as the Model Bundle.  `pf` and `kf` stand for the
fitted states produced by `PCA.fit` and `KMeans.fit` on the given data; in
exact arithmetic `fit_transform X = transform (pf X) X` and
`fit_predict X = predict (kf X) X`, which is how the two stages are
embedded. -/
def train_core (sq : ℚ → ℚ) (pf : List (List ℚ) → PCAModel)
    (kf : List (List ℚ) → List (List ℚ)) (nClusters nComponents : ℕ)
    (b : List Record) : Except String (List ℕ × SMModel) :=
  match prepare_features_for_training b with
  | .error e => .error e
  | .ok (cont, bin) =>
    match rowsToRat (tableRows cont), rowsToRat (tableRows bin) with
    | some crows, some brows =>
      let scaled := crows.map (normalizeRow sq)
      let processed := List.zipWith (fun a b => a ++ b) scaled brows
      let pca := pf processed
      let pcaX := processed.map (pca_transform pca)
      let centers := kf pcaX
      let labels := pcaX.map (km_predict_one centers)
      .ok (labels, ⟨(), pca, centers, jsonKeys get_cluster_names,
        ⟨nClusters, nComponents, get_numerical_features, "1.0"⟩⟩)
    | _, _ => .error nonFiniteMsg

/-- The required raw columns checked by `input_fn` (line 73). -/
def required_columns : List String := ["Age", "Income", "Purchases", "Gender"]

/-- Number of rows of a parsed frame (`len(df)`). -/
def dfLen (t : Table) : ℕ :=
  match t with
  | [] => 0
  | c :: _ => c.2.length

/-- `missing_columns` of `input_fn` line 74: the required columns absent
from the parsed frame. -/
def missingCols (df : Table) : List String :=
  required_columns.filter (fun c => ¬ (colNames df).contains c)

/-- The `ValueError` text of `input_fn` line 76. -/
def missingMsg (ms : List String) : String :=
  "Missing required columns: " ++ String.intercalate ", " ms

/-- The validation half of `input_fn` (`inference.py` lines 72-82) on the
parsed frame: reject when any required column is missing, naming the
missing columns; auto-assign `Customer_ID` as a zero-based row index when
absent.  (Request decoding from JSON/CSV text is I/O glue and not
modelled.) -/
def input_fn_validate (df : Table) : Except String Table :=
  if missingCols df = [] then
    if (colNames df).contains "Customer_ID" then .ok df
    else .ok (df ++ [("Customer_ID", (List.range (dfLen df)).map
      (fun i => PVal.num i))])
  else .error (missingMsg (missingCols df))

/-- The observable frame effect of a call `calculate_derived_features(df)`:
line 25 copies the frame and every later statement writes only to the copy,
so the call returns its result alongside the caller's binding, which still
holds the original records. -/
def calc_derived_call (b : List Record) :
    (Except String Table) × List Record :=
  (calculate_derived_features b, b)

/-- The per-row result record `predict_fn` assembles (cluster id, resolved
segment name, confidence, distance to the assigned center) as a function of
the row's reduced vector. -/
def resultOf (sq : ℚ → ℚ) (m : SMModel) (z : List ℚ) : PredResult :=
  ⟨km_predict_one m.centers z,
   segment_label m.cluster_names (km_predict_one m.centers z),
   confidence_of (minQ (km_distances sq m.centers z)),
   minQ (km_distances sq m.centers z)⟩

/-- Did a pipeline stage succeed? -/
def okCheck {α : Type} (x : Except String α) : Bool :=
  match x with
  | .ok _ => true
  | .error _ => false

/-! Concrete test fixtures (the 4-record batch is the concrete scenario of
the specification's §8). -/

/-- The specification's four-record example batch. -/
def batch4 : List Record :=
  [⟨1, 25, 40000, 5, "Male"⟩, ⟨2, 45, 60000, 15, "Female"⟩,
   ⟨3, 65, 30000, 2, "Male"⟩, ⟨4, 35, 80000, 20, "Female"⟩]

/-- A three-record batch with pairwise-distinct incomes and purchases. -/
def batch3 : List Record :=
  [⟨1, 25, 1000, 1, "Male"⟩, ⟨2, 35, 2000, 2, "Male"⟩,
   ⟨3, 45, 3000, 3, "Male"⟩]

/-- A four-record batch whose first record has `Age = 0`. -/
def batchAge0 : List Record :=
  [⟨1, 0, 50000, 5, "Male"⟩, ⟨2, 25, 40000, 10, "Female"⟩,
   ⟨3, 35, 60000, 2, "Male"⟩, ⟨4, 45, 80000, 20, "Female"⟩]

/-- A batch whose purchases are all zero. -/
def zprBatch : List Record :=
  [⟨1, 20, 1000, 0, "Male"⟩, ⟨2, 30, 2000, 0, "Female"⟩]

/-- A parsed serving frame with all four required columns present but a
non-numeric `Age` cell. -/
def tblBad : Table :=
  [("Age", [.str "abc"]), ("Income", [.num 50000]), ("Purchases", [.num 5]),
   ("Gender", [.str "Male"]), ("Customer_ID", [.num 0])]

/-- A parsed serving frame lacking the required `Income` column. -/
def dfMissing : Table :=
  [("Age", [.num 30]), ("Purchases", [.num 5]), ("Gender", [.str "Male"])]

/-- A concrete stand-in for the state `PCA.fit` produces on the 19-column
processed block of `batch4`. -/
def pf0 : List (List ℚ) → PCAModel :=
  fun _ => ⟨List.replicate 19 0, [List.replicate 19 1]⟩

/-- A concrete stand-in for the final centers of `KMeans.fit`. -/
def kf0 : List (List ℚ) → List (List ℚ) := fun _ => [[0], [5]]

/-- A concrete loaded bundle for exercising the serving path. -/
def m0 : SMModel :=
  ⟨(), ⟨List.replicate 19 0, [List.replicate 19 1]⟩, [[0], [5]],
    jsonKeys get_cluster_names, ⟨3, 1, get_numerical_features, "1.0"⟩⟩

/-! Helper lemmas. -/

theorem okCheck_iff {α : Type} (x : Except String α) :
    okCheck x = true ↔ ∃ a, x = .ok a := by
  cases x with
  | ok a => simp [okCheck]
  | error e => simp [okCheck]

theorem getD_zero_of_all_zero {l : List ℚ} (h : ∀ x ∈ l, x = 0) (i : ℕ) :
    l[i]?.getD 0 = 0 := by
  cases hl : l[i]? with
  | none => rfl
  | some x => simpa using h x (List.getElem?_mem hl)

theorem rat_floor_zero : (0 : ℚ).floor = 0 := by with_unfolding_all rfl

theorem quantile_all_zero {s : List ℚ} (h : ∀ x ∈ s, x = 0) (p : ℚ) :
    quantileQ s p = 0 := by
  simp [quantileQ, getD_zero_of_all_zero h]

theorem quantile_singleton (x : ℚ) (p : ℚ) : quantileQ [x] p = x := by
  have h1 : (([x] : List ℚ).length : ℚ) - 1 = 0 := by simp
  simp [quantileQ, h1, rat_floor_zero]

theorem strictIncr_const_five (x : ℚ) : strictIncr [x, x, x, x, x] = false := by
  simp [strictIncr]

theorem qcut4_singleton (x : ℚ) : qcut4 [x] = .error dupEdgesMsg := by
  simp [qcut4, List.insertionSort, List.orderedInsert, quantile_singleton,
    strictIncr_const_five]

theorem qcut4_all_zero {xs : List ℚ} (hne : xs ≠ []) (h : ∀ x ∈ xs, x = 0) :
    qcut4 xs = .error dupEdgesMsg := by
  have hs : ∀ x ∈ List.insertionSort (fun a b => a ≤ b) xs, x = 0 := by
    intro x hx
    exact h x ((List.perm_insertionSort (fun a b => a ≤ b) xs).mem_iff.mp hx)
  simp [qcut4, hne, quantile_all_zero hs, strictIncr]

/-! Claim theorems. -/

/-- C3 counterexample: the continuous-feature list of
`get_numerical_features` does not have 8 entries, refuting the claim that
the continuous block consists of exactly 8 numeric columns. -/
theorem C3_counterexample : get_numerical_features.length ≠ 8 := by decide

/-- C3 (amended): the Feature Splitter's continuous block consists of
exactly 9 numeric columns used for scaling: the 6 ratio/intensity features
plus Age, Income, and Purchases. -/
theorem C3_continuous_block :
    get_numerical_features =
      ["Age", "Income", "Purchases"] ++
        ["Income_Age_Ratio", "Purchase_Intensity", "Age_Income_Ratio",
         "Purchase_Age_Ratio", "Income_Relative_To_Gender_Avg",
         "Purchases_Relative_To_Gender_Avg"] ∧
    get_numerical_features.length = 9 := by decide

/-- C4 counterexample: a batch of size 3 (pairwise-distinct incomes and
purchases) is accepted by feature derivation, refuting the claim that every
batch of fewer than 4 records is rejected. -/
theorem C4_counterexample :
    batch3.length = 3 ∧ okCheck (calculate_derived_features batch3) = true :=
  ⟨rfl, by with_unfolding_all rfl⟩

/-- C4 (amended): feature derivation has no batch-size check; a batch is
rejected exactly when `pd.qcut`'s quantile edges are not pairwise distinct.
In particular every single-record batch is rejected with the
duplicate-bin-edges error, while a size-3 batch with pairwise-distinct
values is accepted. -/
theorem C4_degenerate_batches :
    (∀ r : Record, calculate_derived_features [r] = .error dupEdgesMsg) ∧
    okCheck (calculate_derived_features batch3) = true := by
  refine ⟨fun r => ?_, by with_unfolding_all rfl⟩
  simp [calculate_derived_features, deriveCore, qcut4_singleton]

/-- C5 counterexample: the batch `batchAge0` contains a record with
`Age = 0`, yet feature derivation accepts it and the produced feature table
contains an infinite `Income_Age_Ratio` value, refuting the claim that such
batches are rejected and that no NaN/infinite values are produced. -/
theorem C5_counterexample :
    (calculate_derived_features batchAge0).toOption.map
        (fun t => decide (PVal.inf ∈ getColVals t "Income_Age_Ratio")) =
      some true := by
  with_unfolding_all rfl

/-- C5 (amended): a batch whose Purchases are all zero is rejected (by the
duplicate-bin-edges error of quartile binning, raised before the
`Purchase_Intensity` division), but a batch containing a record with
`Age = 0` is not rejected: derivation succeeds and the feature table
contains an infinite value in `Income_Age_Ratio`. -/
theorem C5_zero_divisions :
    (∀ b : List Record, b ≠ [] → (∀ r ∈ b, r.purchases = 0) →
      okCheck (calculate_derived_features b) = false) ∧
    (calculate_derived_features batchAge0).toOption.map
        (fun t => decide (PVal.inf ∈ getColVals t "Income_Age_Ratio")) =
      some true := by
  refine ⟨fun b hne hz => ?_, by with_unfolding_all rfl⟩
  have hz' : ∀ x ∈ b.map Record.purchases, x = 0 := by
    intro x hx
    obtain ⟨r, hr, hrx⟩ := List.mem_map.mp hx
    exact hrx ▸ hz r hr
  have hne' : b.map Record.purchases ≠ [] := by
    simpa using hne
  cases hqi : qcut4 (b.map Record.income) with
  | error e => simp [calculate_derived_features, deriveCore, hqi, okCheck]
  | ok ibins =>
    simp [calculate_derived_features, deriveCore, hqi,
      qcut4_all_zero hne' hz', okCheck]

/-- C5 witness: the amended theorem applied to the concrete all-zero
purchases batch `zprBatch`. -/
theorem C5_zero_divisions_witness :
    okCheck (calculate_derived_features zprBatch) = false :=
  C5_zero_divisions.1 zprBatch (by simp [zprBatch]) (by simp [zprBatch])

/-- C9 counterexample: a parsed request frame with all four required
columns present but a non-numeric `Age` value passes `input_fn`'s
validation untouched, refuting the claim that non-numeric values are
rejected by input processing. -/
theorem C9_counterexample :
    input_fn_validate tblBad = .ok tblBad ∧
    PVal.str "abc" ∈ getColVals tblBad "Age" :=
  ⟨by with_unfolding_all rfl, by simp [tblBad, getColVals]⟩

/-- C9 (amended): `input_fn` rejects a parsed frame exactly when one of the
required columns Age, Income, Purchases, Gender is absent, and the
validation error names exactly the missing columns; non-numeric cell values
are not checked by input processing. -/
theorem C9_validation (df : Table) :
    (okCheck (input_fn_validate df) = false ↔ missingCols df ≠ []) ∧
    (∀ e, input_fn_validate df = .error e →
      e = missingMsg (missingCols df)) := by
  constructor
  · by_cases hm : missingCols df = []
    · unfold input_fn_validate
      rw [if_pos hm]
      by_cases hc : (colNames df).contains "Customer_ID" = true
      · rw [if_pos hc]; simp [okCheck, hm]
      · rw [if_neg hc]; simp [okCheck, hm]
    · unfold input_fn_validate
      rw [if_neg hm]
      simp [okCheck, hm]
  · intro e he
    unfold input_fn_validate at he
    by_cases hm : missingCols df = []
    · rw [if_pos hm] at he
      by_cases hc : (colNames df).contains "Customer_ID" = true
      · rw [if_pos hc] at he; exact absurd he (by simp)
      · rw [if_neg hc] at he; exact absurd he (by simp)
    · rw [if_neg hm] at he
      exact ((Except.error.injEq _ _).mp he).symm

/-- C9 witness: the amended theorem applied to a concrete frame lacking
`Income`: validation rejects it. -/
theorem C9_validation_witness :
    okCheck (input_fn_validate dfMissing) = false :=
  (C9_validation dfMissing).1.mpr (by decide)

/-- C10: `calculate_derived_features` works on a copy: the caller's batch
is returned unchanged by the call (its materialized frame still carries the
`Gender` and `Customer_ID` columns), while the successful result frame has
both columns dropped. -/
theorem C10_no_mutation (b : List Record) :
    (calc_derived_call b).2 = b ∧
    "Gender" ∈ colNames (recordsToTable (calc_derived_call b).2) ∧
    "Customer_ID" ∈ colNames (recordsToTable (calc_derived_call b).2) ∧
    (∀ t, (calc_derived_call b).1 = .ok t →
      "Gender" ∉ colNames t ∧ "Customer_ID" ∉ colNames t) := by
  refine ⟨rfl, by simp [recordsToTable, colNames], by simp [recordsToTable, colNames], ?_⟩
  intro t ht
  have ht' : calculate_derived_features b = .ok t := ht
  rcases hd : deriveCore b with ⟨d, oe⟩
  cases oe with
  | none =>
    rw [calculate_derived_features, hd] at ht'
    have htd : t = dropCols d ["Gender", "Customer_ID"] :=
      (Except.ok.injEq _ _).mp ht'.symm
    subst htd
    constructor <;>
    · intro hmem
      simp only [dropCols, colNames, List.mem_map, List.mem_filter] at hmem
      obtain ⟨c, ⟨_, hc⟩, hc1⟩ := hmem
      simp [hc1] at hc
  | some e =>
    rw [calculate_derived_features, hd] at ht'
    exact absurd ht' (by simp)

/-- C10 witness: the frame property evaluated on the concrete batch
`batch4`: the caller's batch is unchanged and the result frame carries
neither `Gender` nor `Customer_ID`. -/
theorem C10_no_mutation_witness :
    (calc_derived_call batch4).2 = batch4 ∧
    (calc_derived_call batch4).1.toOption.map
        (fun t => decide ("Gender" ∉ colNames t) &&
          decide ("Customer_ID" ∉ colNames t)) = some true := by
  obtain ⟨t, ht⟩ := (okCheck_iff (calc_derived_call batch4).1).mp
    (by with_unfolding_all rfl)
  have h := C10_no_mutation batch4
  have h4 := h.2.2.2 t ht
  refine ⟨h.1, ?_⟩
  rw [ht]
  simp [Except.toOption, h4.1, h4.2]

theorem predict_core_eq (sq : ℚ → ℚ) (m : SMModel) (b : List Record)
    (cont bin : Table) (crows brows : List (List ℚ))
    (hp : prepare_features_for_training b = .ok (cont, bin))
    (hc : rowsToRat (tableRows cont) = some crows)
    (hb : rowsToRat (tableRows bin) = some brows) :
    predict_core sq m b = .ok
      ⟨((List.zipWith (fun a c => a ++ c) (crows.map (normalizeRow sq))
          brows).map (pca_transform m.pca)).map (resultOf sq m),
       m.metadata⟩ := by
  unfold predict_core
  simp only [hp, hc, hb]
  simp only [List.map_map, List.zip_map']
  rfl

theorem predict_core_mem_shape (sq : ℚ → ℚ) (m : SMModel) (b : List Record)
    (out : PredictOutput) (h : predict_core sq m b = .ok out) :
    ∀ p ∈ out.predictions, ∃ z, p = resultOf sq m z := by
  rcases hp : prepare_features_for_training b with e | ⟨cont, bin⟩
  · unfold predict_core at h
    simp [hp] at h
  · rcases hc : rowsToRat (tableRows cont) with _ | crows
    · unfold predict_core at h
      simp [hp, hc] at h
    · rcases hb : rowsToRat (tableRows bin) with _ | brows
      · unfold predict_core at h
        simp [hp, hc, hb] at h
      · rw [predict_core_eq sq m b cont bin crows brows hp hc hb] at h
        have hout := (Except.ok.injEq _ _).mp h
        intro p hp'
        rw [← hout] at hp'
        obtain ⟨z, _, hz⟩ := List.mem_map.mp hp'
        exact ⟨z, hz.symm⟩

/-- C2: for every batch of size at least 4 that feature preparation
accepts, the continuous block has exactly the contracted columns, in order,
and that contract list is the shared `get_numerical_features` constant used
verbatim by both the training pipeline (`train.py` line 38) and the serving
pipeline (`inference.py` line 100). -/
theorem C2_feature_contract (b : List Record) (cont bin : Table)
    (_hlen : 4 ≤ b.length)
    (hp : prepare_features_for_training b = .ok (cont, bin)) :
    colNames cont = get_numerical_features ∧
    get_numerical_features =
      ["Age", "Income", "Purchases", "Income_Age_Ratio", "Purchase_Intensity",
       "Age_Income_Ratio", "Purchase_Age_Ratio",
       "Income_Relative_To_Gender_Avg",
       "Purchases_Relative_To_Gender_Avg"] := by
  refine ⟨?_, rfl⟩
  unfold prepare_features_for_training at hp
  rcases hd : calculate_derived_features b with e | d
  · rw [hd] at hp
    exact absurd hp (by simp)
  · simp only [hd] at hp
    by_cases hall :
      (get_numerical_features.all (fun n => (colNames d).contains n)) = true
    · rw [if_pos hall] at hp
      have h1 : selectCols d get_numerical_features = cont :=
        congrArg Prod.fst ((Except.ok.injEq _ _).mp hp)
      rw [← h1]
      simp only [selectCols, colNames, List.map_map]
      have hid : (Prod.fst ∘ fun n : String => (n, getColVals d n)) = id := rfl
      rw [hid, List.map_id]
    · rw [if_neg hall] at hp
      exact absurd hp (by simp)

/-- C2 witness: the contract evaluated on the specification's concrete
four-record batch. -/
theorem C2_feature_contract_witness :
    okCheck (prepare_features_for_training batch4) = true ∧
    (prepare_features_for_training batch4).toOption.map
        (fun cb => colNames cb.1) = some get_numerical_features := by
  obtain ⟨cb, hcb⟩ := (okCheck_iff (prepare_features_for_training batch4)).mp
    (by with_unfolding_all rfl)
  obtain ⟨cont, bin⟩ := cb
  have h := C2_feature_contract batch4 cont bin (by decide) hcb
  refine ⟨(okCheck_iff _).mpr ⟨_, hcb⟩, ?_⟩
  rw [hcb]
  simp [Except.toOption, h.1]

/-- C1: train/serve parity.  For every batch on which the training core
succeeds, replaying the persisted bundle (normalizer, PCA state, KMeans
centers) on the same raw batch through the serving path succeeds and
yields exactly the training-time cluster assignment for every row, for any
square-root routine `sq` and any fitted states `pf`/`kf` the sklearn fits
may produce. -/
theorem C1_train_serve_parity (sq : ℚ → ℚ)
    (pf : List (List ℚ) → PCAModel) (kf : List (List ℚ) → List (List ℚ))
    (nc ncomp : ℕ) (b : List Record) (labels : List ℕ) (bundle : SMModel)
    (h : train_core sq pf kf nc ncomp b = .ok (labels, bundle)) :
    ∃ out, predict_core sq bundle b = .ok out ∧
      out.predictions.map PredResult.cluster_id = labels := by
  rcases hp : prepare_features_for_training b with e | ⟨cont, bin⟩
  · unfold train_core at h
    simp [hp] at h
  · rcases hc : rowsToRat (tableRows cont) with _ | crows
    · unfold train_core at h
      simp [hp, hc] at h
    · rcases hb : rowsToRat (tableRows bin) with _ | brows
      · unfold train_core at h
        simp [hp, hc, hb] at h
      · unfold train_core at h
        simp only [hp, hc, hb, Except.ok.injEq, Prod.mk.injEq] at h
        obtain ⟨hl, hbdl⟩ := h
        refine ⟨_, predict_core_eq sq bundle b cont bin crows brows hp hc hb, ?_⟩
        rw [← hbdl, ← hl]
        simp only [List.map_map]
        rfl

/-- C1 witness: parity on the specification's four-record batch for a
concrete square root and concrete stand-ins for the fitted PCA/KMeans
states. -/
theorem C1_train_serve_parity_witness :
    okCheck (train_core id pf0 kf0 3 1 batch4) = true ∧
    (train_core id pf0 kf0 3 1 batch4).toOption.map
        (fun lb => (predict_core id lb.2 batch4).toOption.map
          (fun out => decide (out.predictions.map PredResult.cluster_id = lb.1)))
      = some (some true) := by
  obtain ⟨lb, hlb⟩ := (okCheck_iff (train_core id pf0 kf0 3 1 batch4)).mp
    (by with_unfolding_all rfl)
  obtain ⟨labels, bundle⟩ := lb
  obtain ⟨out, hout, hmap⟩ :=
    C1_train_serve_parity id pf0 kf0 3 1 batch4 labels bundle hlb
  refine ⟨(okCheck_iff _).mpr ⟨_, hlb⟩, ?_⟩
  rw [hlb]
  simp [Except.toOption, hout, hmap]

/-- C6: every prediction's confidence equals
`1 / (1 + distance_to_assigned_center)`; given a non-negative distance the
confidence lies in (0, 1], and the confidence formula is strictly
decreasing in the distance. -/
theorem C6_confidence :
    (∀ (sq : ℚ → ℚ) (m : SMModel) (b : List Record) (out : PredictOutput),
      predict_core sq m b = .ok out →
      ∀ p ∈ out.predictions,
        p.confidence = confidence_of p.distance_to_center ∧
        (0 ≤ p.distance_to_center → 0 < p.confidence ∧ p.confidence ≤ 1)) ∧
    (∀ d₁ d₂ : ℚ, 0 ≤ d₁ → d₁ < d₂ →
      confidence_of d₂ < confidence_of d₁) := by
  constructor
  · intro sq m b out h p hp
    obtain ⟨z, hz⟩ := predict_core_mem_shape sq m b out h p hp
    subst hz
    refine ⟨rfl, fun hd => ?_⟩
    have hd' : (0 : ℚ) ≤ minQ (km_distances sq m.centers z) := hd
    constructor
    · exact one_div_pos.mpr (by linarith)
    · show (1 : ℚ) / (1 + minQ (km_distances sq m.centers z)) ≤ 1
      rw [div_le_one (by linarith)]
      linarith
  · intro d₁ d₂ h0 hlt
    unfold confidence_of
    exact one_div_lt_one_div_of_lt (by linarith) (by linarith)

/-- C6 witness: a successful concrete serving run, plus the strict
monotonicity instantiated at distances 1 < 2. -/
theorem C6_confidence_witness :
    okCheck (predict_core id m0 batch4) = true ∧
    confidence_of 2 < confidence_of 1 := by
  obtain ⟨out, hout⟩ := (okCheck_iff (predict_core id m0 batch4)).mp
    (by with_unfolding_all rfl)
  exact ⟨(okCheck_iff _).mpr ⟨out, hout⟩,
    C6_confidence.2 1 2 (by norm_num) (by norm_num)⟩

/-- C7: segment-name resolution is total: a cluster id present in the
persisted map resolves to its mapped label, an absent one to the synthetic
label `Cluster_<id>`, and every prediction produced by the serving path
carries the resolved label of its own cluster id — never a lookup
failure. -/
theorem C7_segment_namer (names : List (String × String)) (c : ℕ) :
    (∀ l, names.lookup (toString c) = some l → segment_label names c = l) ∧
    (names.lookup (toString c) = none →
      segment_label names c = "Cluster_" ++ toString c) ∧
    (∀ (sq : ℚ → ℚ) (m : SMModel) (b : List Record) (out : PredictOutput),
      predict_core sq m b = .ok out →
      ∀ p ∈ out.predictions,
        p.segment = segment_label m.cluster_names p.cluster_id) := by
  refine ⟨fun l hl => ?_, fun hn => ?_, fun sq m b out h p hp => ?_⟩
  · simp [segment_label, hl]
  · simp [segment_label, hn]
  · obtain ⟨z, hz⟩ := predict_core_mem_shape sq m b out h p hp
    rw [hz]
    rfl

/-- C7 witness: a mapped id resolves to its label and an unmapped id falls
back to the synthetic label, on the persisted default map. -/
theorem C7_segment_namer_witness :
    segment_label (jsonKeys get_cluster_names) 1 = "Middle Aged" ∧
    segment_label (jsonKeys get_cluster_names) 7 = "Cluster_7" :=
  ⟨(C7_segment_namer (jsonKeys get_cluster_names) 1).1 "Middle Aged"
      (by with_unfolding_all rfl),
   (C7_segment_namer (jsonKeys get_cluster_names) 7).2.1
      (by with_unfolding_all rfl)⟩

/-- C8: inference is deterministic and does not mutate the loaded bundle:
a call returns the bundle unchanged, and a second invocation on the
returned bundle and the same batch produces the identical response. -/
theorem C8_deterministic (sq : ℚ → ℚ) (m : SMModel) (b : List Record) :
    (predict_fn sq m b).2 = m ∧
    (predict_fn sq (predict_fn sq m b).2 b).1 = (predict_fn sq m b).1 :=
  ⟨rfl, rfl⟩

end Seg
